import Mathlib

/-!
Verification of the FastAPI + MongoDB CRUD service (`crud.py`, `models.py`,
`main.py`) against its natural-language specification.

The MongoDB collection is embedded as a `Store`: a list of documents in
natural (insertion) order together with a fresh-identifier counter.  MongoDB
ObjectIds are embedded as natural numbers below `16 ^ 24`; their wire form is
the 24-character lowercase hexadecimal string, exactly as `str(ObjectId)`
produces and `ObjectId.is_valid` accepts.  The floating-point `price` field is
embedded as a rational number and the Python integer `quantity` as an integer.
-/

namespace CrudApi

/-- Value of a hexadecimal digit character, 0 for non-hex characters. -/
def hexDigitVal (c : Char) : Nat :=
  if '0' ≤ c ∧ c ≤ '9' then c.toNat - '0'.toNat
  else if 'a' ≤ c ∧ c ≤ 'f' then c.toNat - 'a'.toNat + 10
  else if 'A' ≤ c ∧ c ≤ 'F' then c.toNat - 'A'.toNat + 10
  else 0

/-- Whether a character is a hexadecimal digit (either case). -/
def isHexChar (c : Char) : Bool :=
  (decide ('0' ≤ c ∧ c ≤ '9')) || (decide ('a' ≤ c ∧ c ≤ 'f')) ||
    (decide ('A' ≤ c ∧ c ≤ 'F'))

/-- Embeds `bson.ObjectId.is_valid` applied to a string: the string form of an
ObjectId is exactly 24 hexadecimal characters. -/
def objectIdIsValid (s : String) : Bool :=
  s.data.length == 24 && s.data.all isHexChar

/-- Accumulator-style evaluation of a big-endian list of hex digits. -/
def parseHexChars : List Char → Nat → Nat
  | [], a => a
  | c :: cs, a => parseHexChars cs (16 * a + hexDigitVal c)

/-- Embeds `ObjectId(item_id)` for a string that passed `is_valid`: the numeric
value of the 24 hex characters (case-insensitive, as hex digits are). -/
def parseOid (s : String) : Nat :=
  parseHexChars s.data 0

/-- Lowercase hexadecimal digit character for a value below 16. -/
def hexChar (n : Nat) : Char :=
  if n < 10 then Char.ofNat (48 + n) else Char.ofNat (87 + n)

/-- Big-endian hex digits of `n`, zero-padded to width `w`. -/
def hexDigitsAux : Nat → Nat → List Char
  | 0, _ => []
  | w + 1, n => hexDigitsAux w (n / 16) ++ [hexChar (n % 16)]

/-- Embeds `str(object_id)`: the 24-character lowercase hexadecimal form. -/
def oidToString (n : Nat) : String :=
  ⟨hexDigitsAux 24 n⟩

theorem hexDigitVal_hexChar {d : Nat} (hd : d < 16) :
    hexDigitVal (hexChar d) = d := by
  interval_cases d <;> decide

theorem isHexChar_hexChar {d : Nat} (hd : d < 16) :
    isHexChar (hexChar d) = true := by
  interval_cases d <;> decide

theorem length_hexDigitsAux (w n : Nat) : (hexDigitsAux w n).length = w := by
  induction w generalizing n with
  | zero => rfl
  | succ w ih => simp [hexDigitsAux, ih]

theorem all_isHexChar_hexDigitsAux (w n : Nat) :
    (hexDigitsAux w n).all isHexChar = true := by
  induction w generalizing n with
  | zero => rfl
  | succ w ih =>
      simp only [hexDigitsAux, List.all_append, List.all_cons, List.all_nil,
        Bool.and_true, Bool.and_eq_true]
      exact ⟨ih _, isHexChar_hexChar (Nat.mod_lt _ (by norm_num))⟩

theorem parseHexChars_append (xs : List Char) (c : Char) (a : Nat) :
    parseHexChars (xs ++ [c]) a = 16 * parseHexChars xs a + hexDigitVal c := by
  induction xs generalizing a with
  | nil => rfl
  | cons x xs ih => simp [parseHexChars, ih]

theorem parseHexChars_hexDigitsAux (w : Nat) :
    ∀ n a, n < 16 ^ w → parseHexChars (hexDigitsAux w n) a = a * 16 ^ w + n := by
  induction w with
  | zero =>
      intro n a hn
      interval_cases n
      simp [hexDigitsAux, parseHexChars]
  | succ w ih =>
      intro n a hn
      have hdiv : n / 16 < 16 ^ w := by
        rw [Nat.div_lt_iff_lt_mul (by norm_num)]
        calc n < 16 ^ (w + 1) := hn
        _ = 16 ^ w * 16 := by ring
      rw [hexDigitsAux, parseHexChars_append, ih _ _ hdiv,
        hexDigitVal_hexChar (Nat.mod_lt _ (by norm_num))]
      have := Nat.div_add_mod n 16
      ring_nf
      omega

/-- Round trip: parsing the hex string of an ObjectId value recovers it. -/
theorem parseOid_oidToString {n : Nat} (hn : n < 16 ^ 24) :
    parseOid (oidToString n) = n := by
  show parseHexChars (hexDigitsAux 24 n) 0 = n
  rw [parseHexChars_hexDigitsAux 24 n 0 hn]
  ring

/-- The hex string of an ObjectId value passes `ObjectId.is_valid`. -/
theorem objectIdIsValid_oidToString (n : Nat) :
    objectIdIsValid (oidToString n) = true := by
  show ((hexDigitsAux 24 n).length == 24 && (hexDigitsAux 24 n).all isHexChar) = true
  rw [length_hexDigitsAux, all_isHexChar_hexDigitsAux]
  rfl

/-- Embeds `models.ItemCreate` (= `ItemBase`): the validated create payload.
`is_active` carries the pydantic default `True`. -/
structure ItemCreate where
  name : String
  description : Option String := none
  price : ℚ
  quantity : ℤ
  category : Option String := none
  is_active : Bool := true
deriving DecidableEq, Repr

/-- The pydantic `Field` constraints of `ItemBase`: `name` has
`min_length=1, max_length=100`, `description` has `max_length=500`,
`price` has `gt=0`, `quantity` has `ge=0`, `category` has `max_length=50`. -/
def ItemCreate.Valid (it : ItemCreate) : Prop :=
  1 ≤ it.name.data.length ∧ it.name.data.length ≤ 100 ∧
  (∀ d, it.description = some d → d.data.length ≤ 500) ∧
  0 < it.price ∧ 0 ≤ it.quantity ∧
  (∀ c, it.category = some c → c.data.length ≤ 50)

/-- Per-field validation errors for a create payload, mirroring the pydantic
`Field` constraints of `ItemBase` one by one (pydantic reports a structured
list with one entry per violated field). -/
def itemCreateErrors (it : ItemCreate) : List String :=
  (if it.name.data.length < 1 ∨ 100 < it.name.data.length then ["name"] else []) ++
  (match it.description with
    | some d => if 500 < d.data.length then ["description"] else []
    | none => []) ++
  (if it.price ≤ 0 then ["price"] else []) ++
  (if it.quantity < 0 then ["quantity"] else []) ++
  (match it.category with
    | some c => if 50 < c.data.length then ["category"] else []
    | none => [])

/-- Embeds `models.ItemUpdate`: all fields optional; `model_dump()` followed by
the `v is not None` comprehension in `crud.update` keeps exactly the `some`
fields, so `none` stands for an absent (or JSON-null) field. -/
structure ItemUpdate where
  name : Option String := none
  description : Option String := none
  price : Option ℚ := none
  quantity : Option ℤ := none
  category : Option String := none
  is_active : Option Bool := none
deriving DecidableEq, Repr

/-- Whether the stripped `update_data` dict of `crud.update` is empty:
every field of the patch is absent. -/
def ItemUpdate.isEmpty (p : ItemUpdate) : Bool :=
  p.name.isNone && p.description.isNone && p.price.isNone &&
    p.quantity.isNone && p.category.isNone && p.is_active.isNone

/-- The pydantic `Field` constraints of `ItemUpdate`: every present field must
satisfy the same constraint as in `ItemBase`. -/
def ItemUpdate.Valid (p : ItemUpdate) : Prop :=
  (∀ n, p.name = some n → 1 ≤ n.data.length ∧ n.data.length ≤ 100) ∧
  (∀ d, p.description = some d → d.data.length ≤ 500) ∧
  (∀ v, p.price = some v → 0 < v) ∧
  (∀ q, p.quantity = some q → 0 ≤ q) ∧
  (∀ c, p.category = some c → c.data.length ≤ 50)

/-- A JSON field of a request body: absent, explicit `null`, or a value. -/
inductive JsonOpt (α : Type) where
  | absent : JsonOpt α
  | null : JsonOpt α
  | value (a : α) : JsonOpt α
deriving DecidableEq, Repr

/-- Pydantic parsing of one optional field: the default `None` is used when the
field is absent, and an explicit `null` also validates to `None`. -/
def JsonOpt.toOption {α : Type} : JsonOpt α → Option α
  | .absent => none
  | .null => none
  | .value a => some a

/-- Wire form of a PUT `/items/{id}` body: each field may be absent, `null`, or
carry a value. -/
structure ItemUpdateWire where
  name : JsonOpt String := .absent
  description : JsonOpt String := .absent
  price : JsonOpt ℚ := .absent
  quantity : JsonOpt ℤ := .absent
  category : JsonOpt String := .absent
  is_active : JsonOpt Bool := .absent
deriving DecidableEq, Repr

/-- Pydantic validation of a wire body into `ItemUpdate`: every field has
default `None`, and a `null` value validates to `None` as well. -/
def parseItemUpdate (w : ItemUpdateWire) : ItemUpdate :=
  { name := w.name.toOption
    description := w.description.toOption
    price := w.price.toOption
    quantity := w.quantity.toOption
    category := w.category.toOption
    is_active := w.is_active.toOption }

/-- A document of the `items` collection.  Every document written by this
application carries the full field set of `ItemBase.model_dump()` plus the
store-assigned `_id`. -/
structure Doc where
  _id : Nat
  name : String
  description : Option String
  price : ℚ
  quantity : ℤ
  category : Option String
  is_active : Bool
deriving DecidableEq, Repr

/-- The record returned to callers: the document with `_id` converted to its
string form (`item["_id"] = str(item["_id"])`). -/
structure ItemOut where
  _id : String
  name : String
  description : Option String
  price : ℚ
  quantity : ℤ
  category : Option String
  is_active : Bool
deriving DecidableEq, Repr

/-- Convert a stored document to the returned record. -/
def docToOut (d : Doc) : ItemOut :=
  ⟨oidToString d._id, d.name, d.description, d.price, d.quantity,
    d.category, d.is_active⟩

/-- The MongoDB `items` collection: documents in natural (insertion) order plus
the next fresh ObjectId value the store will assign. -/
structure Store where
  docs : List Doc
  nextId : Nat
deriving Repr

/-- Embeds `find_one({"_id": oid})`: the first document with the given id. -/
def Store.findOne (s : Store) (oid : Nat) : Option Doc :=
  s.docs.find? (fun d => d._id == oid)

/-- Embeds `update_one({"_id": oid}, {"$set": ...})` on the document list:
rewrite the first matching document, leave everything else in place. -/
def setFirst (f : Doc → Doc) (oid : Nat) : List Doc → List Doc
  | [] => []
  | d :: rest => if d._id == oid then f d :: rest else d :: setFirst f oid rest

/-- Embeds `delete_one({"_id": oid})` on the document list: remove the first
matching document. -/
def removeFirst (oid : Nat) : List Doc → List Doc
  | [] => []
  | d :: rest => if d._id == oid then rest else d :: removeFirst oid rest

/-- Store well-formedness maintained by MongoDB: `_id` values are unique and
every assigned id is below the store's fresh counter. -/
def Store.WF (s : Store) : Prop :=
  (s.docs.map Doc._id).Nodup ∧ ∀ d ∈ s.docs, d._id < s.nextId

/-- The query a `filter_dict` argument denotes: a missing `filter_dict` is the
match-all query `{}` (`query = filter_dict if filter_dict else {}`). -/
def queryOf (filter_dict : Option (Doc → Bool)) : Doc → Bool :=
  match filter_dict with
  | some f => f
  | none => fun _ => true

namespace CRUDOperations

/-- Embeds `CRUDOperations.create`: `insert_one(item_data.model_dump())` with a
store-assigned fresh id, then `find_one` by the inserted id; the re-read
document is returned with its id stringified.  (`none` stands for the
unreachable crash when the re-read finds nothing.) -/
def create (s : Store) (item_data : ItemCreate) : Option ItemOut × Store :=
  let doc : Doc := ⟨s.nextId, item_data.name, item_data.description,
    item_data.price, item_data.quantity, item_data.category, item_data.is_active⟩
  let s' : Store := ⟨s.docs ++ [doc], s.nextId + 1⟩
  match s'.findOne s.nextId with
  | some created => (some (docToOut created), s')
  | none => (none, s')

/-- Embeds `CRUDOperations.get_by_id`: reject invalid ids without touching the
store, else `find_one({"_id": ObjectId(item_id)})` and stringify the id. -/
def get_by_id (s : Store) (item_id : String) : Option ItemOut :=
  if objectIdIsValid item_id then
    (s.findOne (parseOid item_id)).map docToOut
  else
    none

/-- Embeds `CRUDOperations.get_all`: `count_documents(query)` for the total and
`find(query).skip(skip).limit(limit)` for the page, where a missing
`filter_dict` means the match-all query `{}`.  A `limit` of 0 means "no limit"
in MongoDB. -/
def get_all (s : Store) (skip : Nat := 0) (limit : Nat := 100)
    (filter_dict : Option (Doc → Bool) := none) : List ItemOut × Nat :=
  let query : Doc → Bool := queryOf filter_dict
  let matched := s.docs.filter query
  let total := matched.length
  let page := (matched.drop skip)
  let page := if limit == 0 then page else page.take limit
  (page.map docToOut, total)

/-- Embeds `CRUDOperations.get_by_category`: `get_all` with the equality filter
`{"category": category}`. -/
def get_by_category (s : Store) (category : String) (skip : Nat := 0)
    (limit : Nat := 100) : List ItemOut × Nat :=
  get_all s skip limit (some (fun d => d.category == some category))

/-- Embeds `CRUDOperations.get_active_items`: `get_all` with the filter
`{"is_active": True}`. -/
def get_active_items (s : Store) (skip : Nat := 0) (limit : Nat := 100) :
    List ItemOut × Nat :=
  get_all s skip limit (some (fun d => d.is_active == true))

/-- Apply the stripped `update_data` dict as a `$set`: every present field of
the patch overwrites the document's field, absent fields stay untouched. -/
def applyPatch (p : ItemUpdate) (d : Doc) : Doc :=
  { d with
    name := p.name.getD d.name
    description := match p.description with
      | some v => some v
      | none => d.description
    price := p.price.getD d.price
    quantity := p.quantity.getD d.quantity
    category := match p.category with
      | some v => some v
      | none => d.category
    is_active := p.is_active.getD d.is_active }

/-- Embeds `CRUDOperations.update`: reject invalid ids; drop `None` fields from
the dump; an empty `update_data` returns `None` without touching the store;
otherwise `update_one` with `$set`, `None` when `matched_count == 0`, else the
re-read post-update document. -/
def update (s : Store) (item_id : String) (item_data : ItemUpdate) :
    Option ItemOut × Store :=
  if objectIdIsValid item_id then
    if item_data.isEmpty then (none, s)
    else
      let oid := parseOid item_id
      let s' : Store := ⟨setFirst (applyPatch item_data) oid s.docs, s.nextId⟩
      if (s.findOne oid).isSome then
        match s'.findOne oid with
        | some updated => (some (docToOut updated), s')
        | none => (none, s')
      else (none, s')
  else (none, s)

/-- Embeds `CRUDOperations.delete`: reject invalid ids with `False`; else
`delete_one` and report whether a document was removed. -/
def delete (s : Store) (item_id : String) : Bool × Store :=
  if objectIdIsValid item_id then
    let oid := parseOid item_id
    ((s.findOne oid).isSome, ⟨removeFirst oid s.docs, s.nextId⟩)
  else (false, s)

/-- Embeds `CRUDOperations.soft_delete`: reject invalid ids; `update_one` with
`{"$set": {"is_active": False}}`; `None` when `matched_count == 0`, else the
re-read post-update document. -/
def soft_delete (s : Store) (item_id : String) : Option ItemOut × Store :=
  if objectIdIsValid item_id then
    let oid := parseOid item_id
    let s' : Store := ⟨setFirst (fun d => { d with is_active := false }) oid s.docs, s.nextId⟩
    if (s.findOne oid).isSome then
      match s'.findOne oid with
      | some updated => (some (docToOut updated), s')
      | none => (none, s')
    else (none, s')
  else (none, s)

/-- Case-insensitive containment of `needle` at the head of `hay`. -/
def charsHavePre : List Char → List Char → Bool
  | [], _ => true
  | _ :: _, [] => false
  | a :: as, b :: bs => a == b && charsHavePre as bs

/-- Containment of `needle` anywhere in `hay`. -/
def charsInfix : List Char → List Char → Bool
  | needle, [] => needle.isEmpty
  | needle, c :: rest => charsHavePre needle (c :: rest) || charsInfix needle rest

/-- Case folding of a string's characters. -/
def lowerChars (s : String) : List Char :=
  s.data.map Char.toLower

/-- Embeds `{"$regex": search_term, "$options": "i"}` applied to a string
field, for search terms free of regex metacharacters (the literal-substring
semantics the spec fixes): case-insensitive substring containment. -/
def regexMatchI (pat text : String) : Bool :=
  charsInfix (lowerChars pat) (lowerChars text)

/-- The `$or` query of `CRUDOperations.search`: name matches, or description is
a string that matches (a `$regex` clause does not match a `None` field). -/
def searchQuery (search_term : String) (d : Doc) : Bool :=
  regexMatchI search_term d.name ||
    (match d.description with
      | some txt => regexMatchI search_term txt
      | none => false)

/-- Embeds `CRUDOperations.search`: `get_all` with the case-insensitive
name-or-description `$or` regex filter. -/
def search (s : Store) (search_term : String) (skip : Nat := 0)
    (limit : Nat := 100) : List ItemOut × Nat :=
  get_all s skip limit (some (searchQuery search_term))

/-- Embeds `CRUDOperations.bulk_update_prices`: `update_many({}, ...)` setting
every price to `price * multiplier`; returns `modified_count`, which MongoDB
reports as the number of documents whose stored value actually changed. -/
def bulk_update_prices (s : Store) (multiplier : ℚ) : Nat × Store :=
  let modified := (s.docs.filter (fun d => d.price * multiplier != d.price)).length
  (modified, ⟨s.docs.map (fun d => { d with price := d.price * multiplier }), s.nextId⟩)

/-- Embeds the `$group`/`$sum`/`$multiply` pipeline of
`CRUDOperations.get_total_value`: grouping an empty collection produces no
output document at all, otherwise one document holding the sum. -/
def aggregateTotalValue (docs : List Doc) : List ℚ :=
  if docs.isEmpty then []
  else [(docs.map (fun d => d.price * (d.quantity : ℚ))).sum]

/-- Embeds `CRUDOperations.get_total_value`: run the aggregation, take the
first result document if any, else return `0.0` explicitly. -/
def get_total_value (s : Store) : ℚ :=
  match aggregateTotalValue s.docs with
  | r :: _ => r
  | [] => 0

/-- Embeds `CRUDOperations.get_low_stock_items`:
`find({"quantity": {"$lt": threshold}})`, unpaginated. -/
def get_low_stock_items (s : Store) (threshold : ℤ := 5) : List ItemOut :=
  (s.docs.filter (fun d => d.quantity < threshold)).map docToOut

end CRUDOperations

/-- Embeds the POST `/items/` router handler together with FastAPI's body
validation: an invalid body is answered with the per-field 422 error list and
the handler never runs, otherwise `crud.create` runs. -/
def create_item (s : Store) (item : ItemCreate) :
    Except (List String) ItemOut × Store :=
  match itemCreateErrors item with
  | [] =>
      match CRUDOperations.create s item with
      | (some created, s') => (Except.ok created, s')
      | (none, s') => (Except.error ["internal"], s')
  | errs => (Except.error errs, s)

theorem findOne_append_fresh (docs : List Doc) (d : Doc)
    (h : ∀ e ∈ docs, e._id ≠ d._id) :
    (docs ++ [d]).find? (fun e => e._id == d._id) = some d := by
  induction docs with
  | nil => simp [List.find?]
  | cons e rest ih =>
      have he : (e._id == d._id) = false := by
        simp only [beq_eq_false_iff_ne, ne_eq]
        exact h e (by simp)
      simp only [List.cons_append, List.find?, he]
      exact ih (fun x hx => h x (by simp [hx]))

theorem find?_setFirst {f : Doc → Doc} (hf : ∀ e, (f e)._id = e._id)
    (oid : Nat) (docs : List Doc) (d : Doc)
    (hd : docs.find? (fun e => e._id == oid) = some d) :
    (setFirst f oid docs).find? (fun e => e._id == oid) = some (f d) := by
  induction docs with
  | nil => simp [List.find?] at hd
  | cons e rest ih =>
      by_cases he : (e._id == oid) = true
      · simp only [List.find?, he] at hd
        injection hd with hd
        subst hd
        have hfe : ((f e)._id == oid) = true := by
          rw [hf e]; exact he
        simp [setFirst, he, List.find?, hfe]
      · have he' : (e._id == oid) = false := by
          simpa using he
        simp only [List.find?, he'] at hd
        simp [setFirst, he', List.find?, ih hd]

theorem setFirst_of_not_found {oid : Nat} {docs : List Doc}
    (h : docs.find? (fun e => e._id == oid) = none) (f : Doc → Doc) :
    setFirst f oid docs = docs := by
  induction docs with
  | nil => rfl
  | cons e rest ih =>
      rw [List.find?_eq_none] at h
      have he' : (e._id == oid) = false := by
        simpa using h e (by simp)
      have hrest : rest.find? (fun e => e._id == oid) = none := by
        rw [List.find?_eq_none]
        exact fun x hx => h x (by simp [hx])
      simp [setFirst, he', ih hrest]

theorem mem_setFirst_of_ne {e : Doc} {docs : List Doc} (he : e ∈ docs)
    {oid : Nat} (hne : e._id ≠ oid) (f : Doc → Doc) :
    e ∈ setFirst f oid docs := by
  induction docs with
  | nil => simp at he
  | cons d rest ih =>
      rcases List.mem_cons.mp he with h | h
      · subst h
        have he' : (e._id == oid) = false := by simpa using hne
        simp [setFirst, he']
      · by_cases hd : (d._id == oid) = true
        · simp [setFirst, hd, h]
        · have hd' : (d._id == oid) = false := by simpa using hd
          simp [setFirst, hd', ih h]

theorem mem_setFirst {f : Doc → Doc} {oid : Nat} {docs : List Doc} {e : Doc}
    (he : e ∈ setFirst f oid docs) : e ∈ docs ∨ ∃ d ∈ docs, e = f d := by
  induction docs with
  | nil => simp [setFirst] at he
  | cons d rest ih =>
      by_cases hd : (d._id == oid) = true
      · simp only [setFirst, hd, if_pos] at he
        rcases List.mem_cons.mp he with h | h
        · exact Or.inr ⟨d, by simp, h⟩
        · exact Or.inl (by simp [h])
      · have hd' : (d._id == oid) = false := by simpa using hd
        simp only [setFirst, hd', Bool.false_eq_true, if_false] at he
        rcases List.mem_cons.mp he with h | h
        · exact Or.inl (by simp [h])
        · rcases ih h with h' | ⟨x, hx, hex⟩
          · exact Or.inl (by simp [h'])
          · exact Or.inr ⟨x, by simp [hx], hex⟩

theorem mem_removeFirst {oid : Nat} {docs : List Doc} {e : Doc}
    (he : e ∈ removeFirst oid docs) : e ∈ docs := by
  induction docs with
  | nil => simp [removeFirst] at he
  | cons d rest ih =>
      by_cases hd : (d._id == oid) = true
      · simp only [removeFirst, hd, if_pos] at he
        exact List.mem_cons.mpr (Or.inr he)
      · have hd' : (d._id == oid) = false := by simpa using hd
        simp only [removeFirst, hd', Bool.false_eq_true, if_false] at he
        rcases List.mem_cons.mp he with h | h
        · exact List.mem_cons.mpr (Or.inl h)
        · exact List.mem_cons.mpr (Or.inr (ih h))

theorem setFirst_setFirst {f g : Doc → Doc} (hf : ∀ e, (f e)._id = e._id)
    (oid : Nat) (docs : List Doc) :
    setFirst g oid (setFirst f oid docs) = setFirst (fun e => g (f e)) oid docs := by
  induction docs with
  | nil => rfl
  | cons d rest ih =>
      by_cases hd : (d._id == oid) = true
      · have hfd : ((f d)._id == oid) = true := by rw [hf d]; exact hd
        simp [setFirst, hd, hfd]
      · have hd' : (d._id == oid) = false := by simpa using hd
        simp [setFirst, hd', ih]

theorem charsHavePre_iff (needle hay : List Char) :
    CRUDOperations.charsHavePre needle hay = true ↔ needle <+: hay := by
  induction needle generalizing hay with
  | nil => simp [CRUDOperations.charsHavePre]
  | cons a as ih =>
      cases hay with
      | nil => simp [CRUDOperations.charsHavePre]
      | cons b bs =>
          simp [CRUDOperations.charsHavePre, ih, List.cons_prefix_cons,
            Bool.and_eq_true, beq_iff_eq]

theorem charsInfix_iff (needle hay : List Char) :
    CRUDOperations.charsInfix needle hay = true ↔ needle <:+: hay := by
  induction hay with
  | nil =>
      simp [CRUDOperations.charsInfix, List.isEmpty_iff, List.infix_nil]
  | cons c rest ih =>
      simp [CRUDOperations.charsInfix, Bool.or_eq_true, charsHavePre_iff, ih,
        List.infix_cons_iff]

theorem update_of_isEmpty (s : Store) (item_id : String) (p : ItemUpdate)
    (h : p.isEmpty = true) :
    CRUDOperations.update s item_id p = (none, s) := by
  unfold CRUDOperations.update
  by_cases hv : objectIdIsValid item_id = true
  · simp [hv, h]
  · simp only [Bool.not_eq_true] at hv
    simp [hv]

theorem update_of_invalid_id (s : Store) (item_id : String) (p : ItemUpdate)
    (h : objectIdIsValid item_id = false) :
    CRUDOperations.update s item_id p = (none, s) := by
  unfold CRUDOperations.update
  simp [h]

/-- A sample all-defaults document used to instantiate universally
quantified theorems. -/
def sampleDoc (i : Nat) (price : ℚ) (quantity : ℤ) : Doc :=
  ⟨i, "Laptop", none, price, quantity, none, true⟩

/-- A five-record corpus for the pagination property. -/
def corpus5 : Store :=
  ⟨[sampleDoc 0 1 1, sampleDoc 1 1 1, sampleDoc 2 1 1,
    sampleDoc 3 1 1, sampleDoc 4 1 1], 5⟩

/-- The three-record corpus of the total-value property. -/
def corpusTotal : Store :=
  ⟨[sampleDoc 0 100 2, sampleDoc 1 50 5, sampleDoc 2 200 1], 3⟩

/-- C3: for every identifier, `update` with an all-absent patch returns the
"not found" signal `none` and leaves the store unchanged, and a malformed
identifier is likewise rejected with `none` before any store access. -/
theorem update_allAbsent_or_malformed (s : Store) (item_id : String)
    (p : ItemUpdate) (h : p.isEmpty = true ∨ objectIdIsValid item_id = false) :
    CRUDOperations.update s item_id p = (none, s) := by
  rcases h with h | h
  · exact update_of_isEmpty s item_id p h
  · exact update_of_invalid_id s item_id p h

/-- Witness for C3 at a valid, existing identifier and the all-absent patch. -/
theorem update_allAbsent_or_malformed_witness :
    ({} : ItemUpdate).isEmpty = true ∧
    CRUDOperations.update corpus5 (oidToString 0) {} = (none, corpus5) :=
  ⟨rfl, update_allAbsent_or_malformed corpus5 (oidToString 0) {} (Or.inl rfl)⟩

/-- C4: `get_all` returns the page obtained by dropping `skip` matches and
taking at most `limit` of the rest, while the returned total counts all
matches of the same filter, independent of `skip` and `limit`; the missing
filter matches every record. -/
theorem get_all_pagination (s : Store) (skip limit : Nat)
    (filter_dict : Option (Doc → Bool)) (hlim : 1 ≤ limit) :
    (CRUDOperations.get_all s skip limit filter_dict).1
      = (((s.docs.filter (queryOf filter_dict)).drop skip).take limit).map docToOut ∧
    (CRUDOperations.get_all s skip limit filter_dict).1.length ≤ limit ∧
    (CRUDOperations.get_all s skip limit filter_dict).2
      = (s.docs.filter (queryOf filter_dict)).length ∧
    (∀ skip' limit', (CRUDOperations.get_all s skip' limit' filter_dict).2
      = (CRUDOperations.get_all s skip limit filter_dict).2) ∧
    (CRUDOperations.get_all s skip limit none).2 = s.docs.length := by
  have hz : (limit == 0) = false := by
    simp only [beq_eq_false_iff_ne, ne_eq]
    omega
  refine ⟨?_, ?_, ?_, ?_, ?_⟩
  · simp [CRUDOperations.get_all, hz, queryOf]
  · simp only [CRUDOperations.get_all, hz, Bool.false_eq_true, if_false,
      List.length_map]
    exact le_trans (List.length_take_le _ _) (le_refl _)
  · simp [CRUDOperations.get_all, queryOf]
  · intro skip' limit'
    simp [CRUDOperations.get_all]
  · simp [CRUDOperations.get_all, queryOf, List.filter_true]

/-- Witness for C4: over the five-record corpus, `get_all` with `skip = 0`
and `limit = 2` returns exactly 2 records and a total of 5. -/
theorem get_all_pagination_witness :
    (CRUDOperations.get_all corpus5 0 2 none).1.length = 2 ∧
    (CRUDOperations.get_all corpus5 0 2 none).2 = 5 := by
  have h := get_all_pagination corpus5 0 2 none (by norm_num)
  refine ⟨?_, ?_⟩
  · rw [h.1]
    rfl
  · rw [h.2.2.1]
    rfl

/-- C5: `get_total_value` is the sum over all records of price times
quantity, it returns exactly 0 on the empty collection, and on the corpus
`[⟨price 100, qty 2⟩, ⟨price 50, qty 5⟩, ⟨price 200, qty 1⟩]` it returns
650. -/
theorem get_total_value_spec :
    (∀ s : Store,
      CRUDOperations.get_total_value s
          = (s.docs.map (fun d => d.price * (d.quantity : ℚ))).sum ∧
      (s.docs = [] → CRUDOperations.get_total_value s = 0)) ∧
    CRUDOperations.get_total_value corpusTotal = 650 := by
  constructor
  · intro s
    constructor
    · cases h : s.docs with
      | nil =>
          simp [CRUDOperations.get_total_value, CRUDOperations.aggregateTotalValue, h]
      | cons d rest =>
          simp [CRUDOperations.get_total_value, CRUDOperations.aggregateTotalValue, h]
    · intro h
      simp [CRUDOperations.get_total_value, CRUDOperations.aggregateTotalValue, h]
  · norm_num [CRUDOperations.get_total_value, CRUDOperations.aggregateTotalValue,
      corpusTotal, sampleDoc]

/-- Witness for C5: the empty collection yields a total value of exactly 0. -/
theorem get_total_value_spec_witness :
    CRUDOperations.get_total_value ⟨[], 0⟩ = 0 :=
  (get_total_value_spec.1 ⟨[], 0⟩).2 rfl

theorem searchQuery_toLower_congr {t₁ t₂ : String}
    (h : CRUDOperations.lowerChars t₁ = CRUDOperations.lowerChars t₂) :
    CRUDOperations.searchQuery t₁ = CRUDOperations.searchQuery t₂ := by
  funext d
  simp [CRUDOperations.searchQuery, CRUDOperations.regexMatchI, h]

/-- C8: `search` is case-insensitive — any two terms with the same lowercase
form (in particular `"laptop"` and `"LAPTOP"`) give identical results over
every corpus and pagination — and its filter accepts a record exactly when the
term occurs, case-insensitively, as a substring of the name or of a present
description. -/
theorem search_case_insensitive :
    (∀ (s : Store) (t₁ t₂ : String) (skip limit : Nat),
        CRUDOperations.lowerChars t₁ = CRUDOperations.lowerChars t₂ →
        CRUDOperations.search s t₁ skip limit = CRUDOperations.search s t₂ skip limit) ∧
    (∀ (s : Store) (skip limit : Nat),
        CRUDOperations.search s "laptop" skip limit
          = CRUDOperations.search s "LAPTOP" skip limit) ∧
    (∀ (t : String) (d : Doc),
        CRUDOperations.searchQuery t d = true ↔
          (CRUDOperations.lowerChars t <:+: CRUDOperations.lowerChars d.name ∨
            ∃ txt, d.description = some txt ∧
              CRUDOperations.lowerChars t <:+: CRUDOperations.lowerChars txt)) := by
  have hcong : ∀ (s : Store) (t₁ t₂ : String) (skip limit : Nat),
      CRUDOperations.lowerChars t₁ = CRUDOperations.lowerChars t₂ →
      CRUDOperations.search s t₁ skip limit = CRUDOperations.search s t₂ skip limit := by
    intro s t₁ t₂ skip limit h
    unfold CRUDOperations.search
    rw [searchQuery_toLower_congr h]
  refine ⟨hcong, ?_, ?_⟩
  · intro s skip limit
    exact hcong s "laptop" "LAPTOP" skip limit (by decide)
  · intro t d
    cases hd : d.description with
    | none =>
        simp [CRUDOperations.searchQuery, CRUDOperations.regexMatchI, hd,
          charsInfix_iff]
    | some txt =>
        simp [CRUDOperations.searchQuery, CRUDOperations.regexMatchI, hd,
          charsInfix_iff]

/-- Witness for C8 on the five-record corpus at the default pagination. -/
theorem search_case_insensitive_witness :
    CRUDOperations.search corpus5 "laptop" 0 100
      = CRUDOperations.search corpus5 "LAPTOP" 0 100 :=
  search_case_insensitive.1 corpus5 "laptop" "LAPTOP" 0 100 (by decide)

/-- C10: in an update body, a field set to JSON `null` is indistinguishable
from an absent field: bodies that agree after pydantic validation drive
`update` identically, `null` validates exactly as absent does, an all-null (or
all-absent) body makes `update` return `none` without touching the store, and
no update can reset a present `description` or `category` to `none`. -/
theorem update_null_indistinguishable_from_absent :
    (∀ w₁ w₂ : ItemUpdateWire,
        w₁.name.toOption = w₂.name.toOption →
        w₁.description.toOption = w₂.description.toOption →
        w₁.price.toOption = w₂.price.toOption →
        w₁.quantity.toOption = w₂.quantity.toOption →
        w₁.category.toOption = w₂.category.toOption →
        w₁.is_active.toOption = w₂.is_active.toOption →
        parseItemUpdate w₁ = parseItemUpdate w₂) ∧
    (∀ α : Type, (JsonOpt.null : JsonOpt α).toOption = (JsonOpt.absent : JsonOpt α).toOption) ∧
    (∀ (s : Store) (item_id : String) (w : ItemUpdateWire),
        (w.name = .absent ∨ w.name = .null) →
        (w.description = .absent ∨ w.description = .null) →
        (w.price = .absent ∨ w.price = .null) →
        (w.quantity = .absent ∨ w.quantity = .null) →
        (w.category = .absent ∨ w.category = .null) →
        (w.is_active = .absent ∨ w.is_active = .null) →
        CRUDOperations.update s item_id (parseItemUpdate w) = (none, s)) ∧
    (∀ (w : ItemUpdateWire) (d : Doc),
        ((CRUDOperations.applyPatch (parseItemUpdate w) d).description = none →
          d.description = none) ∧
        ((CRUDOperations.applyPatch (parseItemUpdate w) d).category = none →
          d.category = none)) := by
  have hnullOpt : ∀ {α : Type} (x : JsonOpt α),
      (x = .absent ∨ x = .null) → x.toOption = none := by
    intro α x hx
    rcases hx with h | h <;> subst h <;> rfl
  refine ⟨?_, ?_, ?_, ?_⟩
  · intro w₁ w₂ h1 h2 h3 h4 h5 h6
    unfold parseItemUpdate
    rw [h1, h2, h3, h4, h5, h6]
  · intro α
    rfl
  · intro s item_id w hn hd hp hq hc ha
    apply update_of_isEmpty
    unfold ItemUpdate.isEmpty parseItemUpdate
    simp [hnullOpt _ hn, hnullOpt _ hd, hnullOpt _ hp, hnullOpt _ hq,
      hnullOpt _ hc, hnullOpt _ ha]
  · intro w d
    constructor
    · intro h
      unfold CRUDOperations.applyPatch at h
      cases hw : (parseItemUpdate w).description with
      | none => simpa [hw] using h
      | some v => simp [hw] at h
    · intro h
      unfold CRUDOperations.applyPatch at h
      cases hw : (parseItemUpdate w).category with
      | none => simpa [hw] using h
      | some v => simp [hw] at h

/-- Witness for C10 at a concrete body whose fields are all `null`. -/
theorem update_null_indistinguishable_from_absent_witness :
    CRUDOperations.update corpus5 (oidToString 0)
        (parseItemUpdate ⟨.null, .null, .null, .null, .null, .null⟩)
      = (none, corpus5) :=
  update_null_indistinguishable_from_absent.2.2.1 corpus5 (oidToString 0)
    ⟨.null, .null, .null, .null, .null, .null⟩
    (Or.inr rfl) (Or.inr rfl) (Or.inr rfl) (Or.inr rfl) (Or.inr rfl) (Or.inr rfl)

theorem applyPatch_id (p : ItemUpdate) (e : Doc) :
    (CRUDOperations.applyPatch p e)._id = e._id := rfl

theorem update_found (s : Store) (item_id : String) (p : ItemUpdate) (d : Doc)
    (hv : objectIdIsValid item_id = true) (hne : p.isEmpty = false)
    (hd : s.findOne (parseOid item_id) = some d) :
    CRUDOperations.update s item_id p
      = (some (docToOut (CRUDOperations.applyPatch p d)),
         ⟨setFirst (CRUDOperations.applyPatch p) (parseOid item_id) s.docs,
          s.nextId⟩) := by
  have hfind : (setFirst (CRUDOperations.applyPatch p) (parseOid item_id)
        s.docs).find? (fun e => e._id == parseOid item_id)
      = some (CRUDOperations.applyPatch p d) :=
    find?_setFirst (applyPatch_id p) _ s.docs d hd
  unfold CRUDOperations.update
  simp only [Store.findOne] at hd
  simp [hv, hne, Store.findOne, hd, hfind]

/-- C2: for every existing record and every patch with at least one present
field, `update` rewrites exactly the present fields of that record, leaves
every absent field identical to its pre-update value, returns the full
post-update record, and leaves every record with a different identifier in
the store untouched. -/
theorem update_patch_frame (s : Store) (item_id : String) (p : ItemUpdate)
    (d : Doc) (hv : objectIdIsValid item_id = true) (hne : p.isEmpty = false)
    (hd : s.findOne (parseOid item_id) = some d) :
    CRUDOperations.update s item_id p
      = (some (docToOut (CRUDOperations.applyPatch p d)),
         ⟨setFirst (CRUDOperations.applyPatch p) (parseOid item_id) s.docs,
          s.nextId⟩) ∧
    (CRUDOperations.applyPatch p d)._id = d._id ∧
    (p.name = none → (CRUDOperations.applyPatch p d).name = d.name) ∧
    (∀ v, p.name = some v → (CRUDOperations.applyPatch p d).name = v) ∧
    (p.description = none →
      (CRUDOperations.applyPatch p d).description = d.description) ∧
    (∀ v, p.description = some v →
      (CRUDOperations.applyPatch p d).description = some v) ∧
    (p.price = none → (CRUDOperations.applyPatch p d).price = d.price) ∧
    (∀ v, p.price = some v → (CRUDOperations.applyPatch p d).price = v) ∧
    (p.quantity = none → (CRUDOperations.applyPatch p d).quantity = d.quantity) ∧
    (∀ v, p.quantity = some v → (CRUDOperations.applyPatch p d).quantity = v) ∧
    (p.category = none → (CRUDOperations.applyPatch p d).category = d.category) ∧
    (∀ v, p.category = some v →
      (CRUDOperations.applyPatch p d).category = some v) ∧
    (p.is_active = none →
      (CRUDOperations.applyPatch p d).is_active = d.is_active) ∧
    (∀ v, p.is_active = some v → (CRUDOperations.applyPatch p d).is_active = v) ∧
    (∀ e ∈ s.docs, e._id ≠ parseOid item_id →
      e ∈ (CRUDOperations.update s item_id p).2.docs) := by
  have hmain := update_found s item_id p d hv hne hd
  refine ⟨hmain, rfl, ?_, ?_, ?_, ?_, ?_, ?_, ?_, ?_, ?_, ?_, ?_, ?_, ?_⟩
  · intro h; simp [CRUDOperations.applyPatch, h]
  · intro v h; simp [CRUDOperations.applyPatch, h]
  · intro h; simp [CRUDOperations.applyPatch, h]
  · intro v h; simp [CRUDOperations.applyPatch, h]
  · intro h; simp [CRUDOperations.applyPatch, h]
  · intro v h; simp [CRUDOperations.applyPatch, h]
  · intro h; simp [CRUDOperations.applyPatch, h]
  · intro v h; simp [CRUDOperations.applyPatch, h]
  · intro h; simp [CRUDOperations.applyPatch, h]
  · intro v h; simp [CRUDOperations.applyPatch, h]
  · intro h; simp [CRUDOperations.applyPatch, h]
  · intro v h; simp [CRUDOperations.applyPatch, h]
  · intro e he hne'
    rw [hmain]
    exact mem_setFirst_of_ne he hne' _

/-- Witness for C2: updating the price of the first corpus record. -/
theorem update_patch_frame_witness :
    CRUDOperations.update corpus5 (oidToString 0)
        { price := some 7 }
      = (some (docToOut (CRUDOperations.applyPatch { price := some 7 }
            (sampleDoc 0 1 1))),
         ⟨setFirst (CRUDOperations.applyPatch { price := some 7 })
            (parseOid (oidToString 0)) corpus5.docs, corpus5.nextId⟩) :=
  (update_patch_frame corpus5 (oidToString 0) { price := some 7 }
    (sampleDoc 0 1 1) (by decide) (by decide) (by decide)).1

theorem soft_delete_found (s : Store) (item_id : String) (d : Doc)
    (hv : objectIdIsValid item_id = true)
    (hd : s.findOne (parseOid item_id) = some d) :
    CRUDOperations.soft_delete s item_id
      = (some (docToOut { d with is_active := false }),
         ⟨setFirst (fun e => { e with is_active := false }) (parseOid item_id)
            s.docs, s.nextId⟩) := by
  have hfind : (setFirst (fun e => { e with is_active := false })
        (parseOid item_id) s.docs).find? (fun e => e._id == parseOid item_id)
      = some ({ d with is_active := false }) :=
    @find?_setFirst (fun e => { e with is_active := false }) (fun e => rfl)
      (parseOid item_id) s.docs d hd
  unfold CRUDOperations.soft_delete
  simp only [Store.findOne] at hd
  simp [hv, Store.findOne, hd, hfind]

/-- C7: `soft_delete` rejects malformed and unmatched identifiers with the
"not found" signal leaving the documents unchanged; on an existing record it
sets `is_active` to `false` unconditionally while changing no other field
(also when the flag is already `false`), returns the updated record, and
applying it a second time reproduces the exact same answer and store. -/
theorem soft_delete_idempotent (s : Store) (item_id : String) :
    (objectIdIsValid item_id = false →
      CRUDOperations.soft_delete s item_id = (none, s)) ∧
    (objectIdIsValid item_id = true → s.findOne (parseOid item_id) = none →
      (CRUDOperations.soft_delete s item_id).1 = none ∧
      (CRUDOperations.soft_delete s item_id).2.docs = s.docs) ∧
    (∀ d, objectIdIsValid item_id = true →
      s.findOne (parseOid item_id) = some d →
      (CRUDOperations.soft_delete s item_id).1
          = some (docToOut { d with is_active := false }) ∧
      (d.is_active = false →
        (CRUDOperations.soft_delete s item_id).1 = some (docToOut d)) ∧
      CRUDOperations.soft_delete (CRUDOperations.soft_delete s item_id).2 item_id
        = CRUDOperations.soft_delete s item_id) := by
  refine ⟨?_, ?_, ?_⟩
  · intro hv
    unfold CRUDOperations.soft_delete
    simp [hv]
  · intro hv hd
    have hset := setFirst_of_not_found hd (fun e => { e with is_active := false })
    unfold CRUDOperations.soft_delete
    simp only [Store.findOne] at hd
    simp [hv, Store.findOne, hd, hset]
  · intro d hv hd
    have hmain := soft_delete_found s item_id d hv hd
    refine ⟨by rw [hmain], ?_, ?_⟩
    · intro hfalse
      have : ({ d with is_active := false } : Doc) = d := by
        cases d
        simp_all
      rw [hmain, this]
    · have hfind : Store.findOne
          ⟨setFirst (fun e => { e with is_active := false }) (parseOid item_id)
            s.docs, s.nextId⟩ (parseOid item_id)
          = some ({ d with is_active := false }) :=
        @find?_setFirst (fun e => { e with is_active := false }) (fun e => rfl)
          (parseOid item_id) s.docs d hd
      have hsecond := soft_delete_found
        ⟨setFirst (fun e => { e with is_active := false }) (parseOid item_id)
          s.docs, s.nextId⟩ item_id ({ d with is_active := false }) hv hfind
      have hset : setFirst (fun e : Doc => { e with is_active := false })
            (parseOid item_id)
            (setFirst (fun e : Doc => { e with is_active := false })
              (parseOid item_id) s.docs)
          = setFirst (fun e : Doc => { e with is_active := false })
            (parseOid item_id) s.docs :=
        @setFirst_setFirst (fun e => { e with is_active := false })
          (fun e => { e with is_active := false }) (fun e => rfl)
          (parseOid item_id) s.docs
      calc CRUDOperations.soft_delete
              (CRUDOperations.soft_delete s item_id).2 item_id
          = (some (docToOut { d with is_active := false }),
             (⟨setFirst (fun e : Doc => { e with is_active := false })
                  (parseOid item_id)
                  (setFirst (fun e : Doc => { e with is_active := false })
                    (parseOid item_id) s.docs), s.nextId⟩ : Store)) := by
            rw [hmain]
            exact hsecond
        _ = (some (docToOut { d with is_active := false }),
             (⟨setFirst (fun e : Doc => { e with is_active := false })
                  (parseOid item_id) s.docs, s.nextId⟩ : Store)) := by
            rw [hset]
        _ = CRUDOperations.soft_delete s item_id := hmain.symm

/-- Witness for C7: deactivating the first corpus record twice. -/
theorem soft_delete_idempotent_witness :
    CRUDOperations.soft_delete
        (CRUDOperations.soft_delete corpus5 (oidToString 0)).2 (oidToString 0)
      = CRUDOperations.soft_delete corpus5 (oidToString 0) :=
  ((soft_delete_idempotent corpus5 (oidToString 0)).2.2 (sampleDoc 0 1 1)
    (by decide) (by decide)).2.2

/-- A sample valid create payload. -/
def itemSample : ItemCreate :=
  { name := "Laptop", price := 1299, quantity := 10 }

/-- C1: for every valid create payload, `create` inserts the record, re-reads
and returns the full stored record under a fresh identifier, `get_by_id` on
that identifier returns the very same record, the returned record equals the
input on every field, and the `is_active` field defaults to `true` when the
payload omits it. -/
theorem create_then_get_roundtrip (s : Store) (item : ItemCreate)
    (hvalid : item.Valid) (hwf : ∀ d ∈ s.docs, d._id < s.nextId)
    (hbound : s.nextId < 16 ^ 24) :
    (∃ out : ItemOut,
      (CRUDOperations.create s item).1 = some out ∧
      CRUDOperations.get_by_id (CRUDOperations.create s item).2 out._id
        = some out ∧
      out.name = item.name ∧ out.description = item.description ∧
      out.price = item.price ∧ out.quantity = item.quantity ∧
      out.category = item.category ∧ out.is_active = item.is_active) ∧
    (∀ (n : String) (ds : Option String) (pr : ℚ) (q : ℤ) (c : Option String),
      ({ name := n, description := ds, price := pr, quantity := q,
         category := c } : ItemCreate).is_active = true) := by
  constructor
  · have hne : ∀ e ∈ s.docs,
        e._id ≠ (⟨s.nextId, item.name, item.description, item.price,
          item.quantity, item.category, item.is_active⟩ : Doc)._id :=
      fun e he => Nat.ne_of_lt (hwf e he)
    have hfound := findOne_append_fresh s.docs
      ⟨s.nextId, item.name, item.description, item.price, item.quantity,
        item.category, item.is_active⟩ hne
    have hcreate : CRUDOperations.create s item
        = (some (docToOut ⟨s.nextId, item.name, item.description, item.price,
            item.quantity, item.category, item.is_active⟩),
           ⟨s.docs ++ [⟨s.nextId, item.name, item.description, item.price,
            item.quantity, item.category, item.is_active⟩], s.nextId + 1⟩) := by
      unfold CRUDOperations.create
      simp only [Store.findOne]
      rw [hfound]
    refine ⟨docToOut ⟨s.nextId, item.name, item.description, item.price,
      item.quantity, item.category, item.is_active⟩,
      ?_, ?_, rfl, rfl, rfl, rfl, rfl, rfl⟩
    · rw [hcreate]
    · rw [hcreate]
      unfold CRUDOperations.get_by_id
      have hv := objectIdIsValid_oidToString s.nextId
      have hp : parseOid (oidToString s.nextId) = s.nextId :=
        parseOid_oidToString hbound
      simp only [docToOut, hv, if_true, hp, Store.findOne]
      rw [hfound]
      rfl
  · intro n ds pr q c
    rfl

/-- Witness for C1: creating a sample item in the empty store and reading it
back by its assigned identifier. -/
theorem create_then_get_roundtrip_witness :
    (∃ out : ItemOut,
      (CRUDOperations.create ⟨[], 0⟩ itemSample).1 = some out ∧
      CRUDOperations.get_by_id (CRUDOperations.create ⟨[], 0⟩ itemSample).2
          out._id = some out ∧
      out.name = itemSample.name ∧ out.description = itemSample.description ∧
      out.price = itemSample.price ∧ out.quantity = itemSample.quantity ∧
      out.category = itemSample.category ∧
      out.is_active = itemSample.is_active) ∧
    (∀ (n : String) (ds : Option String) (pr : ℚ) (q : ℤ) (c : Option String),
      ({ name := n, description := ds, price := pr, quantity := q,
         category := c } : ItemCreate).is_active = true) :=
  create_then_get_roundtrip ⟨[], 0⟩ itemSample
    ⟨by decide, by decide, fun d h => by simp [itemSample] at h,
      by norm_num [itemSample], by decide, fun c h => by simp [itemSample] at h⟩
    (by simp) (by norm_num)

/-- The data-model invariant of a stored record: a strictly positive price and
a non-negative quantity. -/
def StoreValid (s : Store) : Prop :=
  ∀ d ∈ s.docs, 0 < d.price ∧ 0 ≤ d.quantity

/-- C6: every operation preserves the invariant that each stored record has
`price > 0` and `quantity ≥ 0`: `create` with a valid payload, `update` with a
valid patch, `soft_delete`, `delete`, and `bulk_update_prices` under the
router-enforced precondition `multiplier > 0`. -/
theorem invariants_preserved (s : Store) (hs : StoreValid s) :
    (∀ item : ItemCreate, item.Valid →
      StoreValid (CRUDOperations.create s item).2) ∧
    (∀ (item_id : String) (p : ItemUpdate), p.Valid →
      StoreValid (CRUDOperations.update s item_id p).2) ∧
    (∀ item_id : String, StoreValid (CRUDOperations.soft_delete s item_id).2) ∧
    (∀ item_id : String, StoreValid (CRUDOperations.delete s item_id).2) ∧
    (∀ m : ℚ, 0 < m → StoreValid (CRUDOperations.bulk_update_prices s m).2) := by
  refine ⟨?_, ?_, ?_, ?_, ?_⟩
  · intro item hvalid
    have h2 : (CRUDOperations.create s item).2
        = ⟨s.docs ++ [⟨s.nextId, item.name, item.description, item.price,
            item.quantity, item.category, item.is_active⟩], s.nextId + 1⟩ := by
      unfold CRUDOperations.create
      dsimp only
      split <;> rfl
    rw [h2]
    intro e he
    rcases List.mem_append.mp he with h | h
    · exact hs e h
    · obtain ⟨_, _, _, h4, h5, _⟩ := hvalid
      rcases List.mem_singleton.mp h with rfl
      exact ⟨h4, h5⟩
  · intro item_id p hp
    by_cases hv : objectIdIsValid item_id = true
    · by_cases hemp : p.isEmpty = true
      · rw [update_of_isEmpty s item_id p hemp]
        exact hs
      · have hne : p.isEmpty = false := by
          simpa using hemp
        have h2 : (CRUDOperations.update s item_id p).2
            = ⟨setFirst (CRUDOperations.applyPatch p) (parseOid item_id)
                s.docs, s.nextId⟩ := by
          unfold CRUDOperations.update
          simp only [hv, if_true, hne, Bool.false_eq_true, if_false]
          split
          · split <;> rfl
          · rfl
        rw [h2]
        intro e he
        rcases mem_setFirst he with h | ⟨d0, hd0, rfl⟩
        · exact hs e h
        · obtain ⟨_, _, hp3, hp4, _⟩ := hp
          constructor
          · cases hpp : p.price with
            | none =>
                simpa [CRUDOperations.applyPatch, hpp] using (hs d0 hd0).1
            | some v =>
                simpa [CRUDOperations.applyPatch, hpp] using hp3 v hpp
          · cases hpq : p.quantity with
            | none =>
                simpa [CRUDOperations.applyPatch, hpq] using (hs d0 hd0).2
            | some q =>
                simpa [CRUDOperations.applyPatch, hpq] using hp4 q hpq
    · have hv' : objectIdIsValid item_id = false := by
        simpa using hv
      rw [update_of_invalid_id s item_id p hv']
      exact hs
  · intro item_id
    by_cases hv : objectIdIsValid item_id = true
    · have h2 : (CRUDOperations.soft_delete s item_id).2
          = ⟨setFirst (fun e => { e with is_active := false })
              (parseOid item_id) s.docs, s.nextId⟩ := by
        unfold CRUDOperations.soft_delete
        simp only [hv, if_true]
        split
        · split <;> rfl
        · rfl
      rw [h2]
      intro e he
      rcases mem_setFirst he with h | ⟨d0, hd0, rfl⟩
      · exact hs e h
      · exact ⟨(hs d0 hd0).1, (hs d0 hd0).2⟩
    · have hv' : objectIdIsValid item_id = false := by
        simpa using hv
      unfold CRUDOperations.soft_delete
      simp [hv']
      exact hs
  · intro item_id
    by_cases hv : objectIdIsValid item_id = true
    · have h2 : (CRUDOperations.delete s item_id).2
          = ⟨removeFirst (parseOid item_id) s.docs, s.nextId⟩ := by
        unfold CRUDOperations.delete
        simp [hv]
      rw [h2]
      intro e he
      exact hs e (mem_removeFirst he)
    · have hv' : objectIdIsValid item_id = false := by
        simpa using hv
      unfold CRUDOperations.delete
      simp [hv']
      exact hs
  · intro m hm
    intro e he
    simp only [CRUDOperations.bulk_update_prices, List.mem_map] at he
    obtain ⟨d0, hd0, rfl⟩ := he
    exact ⟨mul_pos (hs d0 hd0).1 hm, (hs d0 hd0).2⟩

/-- Witness for C6: the price invariant after a bulk price update with
multiplier 2 on the five-record corpus. -/
theorem invariants_preserved_witness :
    StoreValid corpus5 ∧ 0 < (2 : ℚ) ∧
    StoreValid (CRUDOperations.bulk_update_prices corpus5 2).2 :=
  ⟨by unfold StoreValid; decide, by norm_num,
    (invariants_preserved corpus5 (by unfold StoreValid; decide)).2.2.2.2 2
      (by norm_num)⟩

/-- C9: a create payload with an empty name, price 0, price −1, or quantity −1
always fails validation: the per-field error list is non-empty, the router
answers with it, and nothing is inserted; more generally the error list is
empty exactly when the payload satisfies the `ItemBase` constraints (name
length in [1,100], price > 0, quantity ≥ 0, and the optional-length bounds). -/
theorem create_item_validation (s : Store) (it : ItemCreate) :
    ((it.name = "" ∨ it.price = 0 ∨ it.price = -1 ∨ it.quantity = -1) →
      itemCreateErrors it ≠ [] ∧
      create_item s it = (Except.error (itemCreateErrors it), s)) ∧
    (itemCreateErrors it = [] ↔ it.Valid) := by
  have hiff : itemCreateErrors it = [] ↔ it.Valid := by
    unfold itemCreateErrors ItemCreate.Valid
    cases hd : it.description <;> cases hc : it.category <;>
      simp [List.append_eq_nil, ite_eq_right_iff, not_lt, not_le, not_or,
        Nat.one_le_iff_ne_zero, ne_eq] <;>
      tauto
  refine ⟨?_, hiff⟩
  intro h
  have hne : itemCreateErrors it ≠ [] := by
    intro hnil
    obtain ⟨h1, _, _, h4, h5, _⟩ := hiff.mp hnil
    rcases h with h | h | h | h
    · rw [h] at h1
      simp at h1
    · rw [h] at h4
      norm_num at h4
    · rw [h] at h4
      norm_num at h4
    · rw [h] at h5
      norm_num at h5
  refine ⟨hne, ?_⟩
  cases herr : itemCreateErrors it with
  | nil => exact absurd herr hne
  | cons e es =>
      unfold create_item
      rw [herr]

/-- Witness for C9: the payload with the empty name is rejected and the
store is untouched. -/
theorem create_item_validation_witness :
    itemCreateErrors { name := "", price := 1, quantity := 1 } ≠ [] ∧
    create_item ⟨[], 0⟩ { name := "", price := 1, quantity := 1 }
      = (Except.error
          (itemCreateErrors { name := "", price := 1, quantity := 1 }),
         ⟨[], 0⟩) :=
  (create_item_validation ⟨[], 0⟩ { name := "", price := 1, quantity := 1 }).1
    (Or.inl rfl)

end CrudApi
